import Mathlib

/-!
Verification of the manga-hilaw backend's comment-threading assembly,
comment write/delete operations, bookmark upsert behaviour and error
normalisation, as a shallow embedding of the TypeScript source.

Conventions of the embedding:
* JavaScript strings are Lean `String`s; a nullable/optional string field is
  `Option String` (`none` = `null`/`undefined`).
* Timestamps (`created_at`, `updated_at`, `last_read_at`) are `Nat`s, standing
  for the millisecond value `new Date(s).getTime()` used by the source's
  comparator.
* JavaScript truthiness of an optional string (`if (comment.parent_id)`,
  `x || y`) is modelled explicitly: `none` and `some ""` are falsy.
* `Array.prototype.sort` with comparator `(a, b) => aTime - bTime` is required
  by ECMAScript 2019+ to be a stable ascending sort; the stable ascending
  reordering of a list is unique, and `sortByTime` below (a stable insertion
  sort) computes it.
-/

namespace MangaHilaw

/-- A raw stored comment row, with exactly the columns selected by
`getComments` in src/src/controllers/comment.controller.ts. -/
structure RawComment where
  id : String
  user_id : String
  manga_id : String
  chapter_hid : String
  content : String
  parent_id : Option String
  created_at : Nat
  updated_at : Nat
deriving DecidableEq

/-- A row of the `profiles` table as selected by `getComments`
(`id, username, avatar_url`); the display columns are nullable. -/
structure Profile where
  id : String
  username : Option String
  avatar_url : Option String
deriving DecidableEq

/-- An enriched comment as produced by the `transformedComments` map in
`getComments`: the eight raw columns plus resolved display fields.  (The
`replies` property is added later, and only on top-level comments, so it is
not a field here.) -/
structure EComment where
  id : String
  user_id : String
  manga_id : String
  chapter_hid : String
  content : String
  parent_id : Option String
  created_at : Nat
  updated_at : Nat
  username : String
  avatar_url : Option String
deriving DecidableEq

/-- A top-level output item of `getComments`: an enriched comment together
with its attached `replies` list. -/
structure ThreadedComment where
  base : EComment
  replies : List EComment
deriving DecidableEq

/-- JavaScript truthiness of a nullable string: `null`/`undefined` and the
empty string are falsy. -/
def truthy : Option String → Bool
  | none => false
  | some s => !s.isEmpty

/-- `v || dflt` for a possibly-missing string `v` (used for
`profile?.username || "Anonymous"`). -/
def jsOrString (v : Option String) (dflt : String) : String :=
  match v with
  | some s => if s.isEmpty then dflt else s
  | none => dflt

/-- `v || null` for a possibly-missing string `v` (used for
`profile?.avatar_url || null`). -/
def jsOrNull (v : Option String) : Option String :=
  match v with
  | some s => if s.isEmpty then none else some s
  | none => none

/-- `profileMap.get uid`: the source fills a `Map` by iterating over the
profile rows with `profileMap.set(profile.id, profile)` (a later row with the
same id overwrites an earlier one) and then looks the map up. -/
def profileLookup (profiles : List Profile) (uid : String) : Option Profile :=
  profiles.foldl (fun acc p => if p.id = uid then some p else acc) none

/-- One step of the `transformedComments` map of `getComments`: copy the
eight raw columns and resolve `username`/`avatar_url` through the profile
map, with the source's `||`-defaults. -/
def enrich (profiles : List Profile) (c : RawComment) : EComment :=
  let profile := profileLookup profiles c.user_id
  { id := c.id
    user_id := c.user_id
    manga_id := c.manga_id
    chapter_hid := c.chapter_hid
    content := c.content
    parent_id := c.parent_id
    created_at := c.created_at
    updated_at := c.updated_at
    username := jsOrString (profile.bind Profile.username) ("Anonymous")
    avatar_url := jsOrNull (profile.bind Profile.avatar_url) }

/-- The list `transformedComments` of `getComments`. -/
def transformedComments (comments : List RawComment) (profiles : List Profile) :
    List EComment :=
  comments.map (enrich profiles)

/-- Membership test used to group a comment under the key `x` of
`repliesMap`: the source pushes `comment` under key `comment.parent_id`
only when `comment.parent_id` is truthy. -/
def isReplyTo (x : String) (c : EComment) : Bool :=
  match c.parent_id with
  | some s => !s.isEmpty && s == x
  | none => false

/-- The list `topLevelComments` of `getComments`: comments whose `parent_id`
is falsy, in input order. -/
def topLevelComments (comments : List RawComment) (profiles : List Profile) :
    List EComment :=
  (transformedComments comments profiles).filter (fun c => !(truthy c.parent_id))

/-- `repliesMap.get(x) || []`: the group of comments with truthy
`parent_id = x`, in input (push) order. -/
def repliesMapGet (comments : List RawComment) (profiles : List Profile)
    (x : String) : List EComment :=
  (transformedComments comments profiles).filter (isReplyTo x)

/-- Stable insertion of `x` into `l`, placing `x` before every element whose
`created_at` is not strictly smaller. -/
def insertByTime (x : EComment) : List EComment → List EComment
  | [] => [x]
  | y :: ys =>
    if y.created_at < x.created_at then y :: insertByTime x ys
    else x :: y :: ys

/-- Stable ascending sort by `created_at`; models the source's
`replies.sort((a, b) => new Date(a.created_at).getTime() - new Date(b.created_at).getTime())`
(ECMAScript sort is stable and this comparator orders ascending by time). -/
def sortByTime : List EComment → List EComment
  | [] => []
  | x :: xs => insertByTime x (sortByTime xs)

/-- The threading assembly of `getComments` (lines 60-100 of
src/src/controllers/comment.controller.ts): enrich every comment, partition
by truthiness of `parent_id`, attach to each top-level comment the group of
replies keyed by its `id`, sorted ascending by `created_at`. -/
def buildThread (comments : List RawComment) (profiles : List Profile) :
    List ThreadedComment :=
  (topLevelComments comments profiles).map
    (fun c => { base := c, replies := sortByTime (repliesMapGet comments profiles c.id) })

/-! Whitespace trimming, modelling `String.prototype.trim`. -/

/-- Remove leading whitespace characters. -/
def trimLeftWS (l : List Char) : List Char := l.dropWhile Char.isWhitespace

/-- Remove trailing whitespace characters. -/
def trimRightWS (l : List Char) : List Char :=
  (l.reverse.dropWhile Char.isWhitespace).reverse

/-- Remove leading and trailing whitespace characters. -/
def trimChars (l : List Char) : List Char := trimRightWS (trimLeftWS l)

/-- JavaScript `s.trim()` on the character list of `s`. -/
def jsTrim (s : String) : String := String.mk (trimChars s.data)

/-! The comment write path (`POST /api/comments`) and delete path
(`DELETE /api/comments/:id`).  The `comments` table of the hosted relational
store is a list of `RawComment` rows.  The store's own operations (select by
equality, `.single()`, insert, delete) are modelled from the spec:
"Relational store: exposes row-level CRUD with equality/ordering/pagination
filters on named tables; a not-found result is distinguished from a true
error by a specific error code" — src/ contains only the callers. -/

/-- The request body of `POST /api/comments` (`CommentInput` in
src/unnamed/part_008): `parent_id` is optional. -/
structure CommentInput where
  manga_id : String
  chapter_hid : String
  content : String
  parent_id : Option String
deriving DecidableEq

/-- Hexadecimal digit test used by the UUID format check. -/
def isHexChar (c : Char) : Bool :=
  c.isDigit || (97 ≤ c.toNat && c.toNat ≤ 102) || (65 ≤ c.toNat && c.toNat ≤ 70)

/-- Split a character list on a separator character; `[[]]` for the empty
list, so that `n` separators always yield `n + 1` groups. -/
def splitOnChar (sep : Char) : List Char → List (List Char)
  | [] => [[]]
  | c :: cs =>
    if c = sep then [] :: splitOnChar sep cs
    else
      match splitOnChar sep cs with
      | [] => [[c]]
      | g :: gs => (c :: g) :: gs

/-- The `isUUID` validator of express-validator: five hyphen-separated groups
of hex digits with lengths 8-4-4-4-12. -/
def isUUID (s : String) : Bool :=
  match splitOnChar (Char.ofNat 45) s.data with
  | [a, b, c, d, e] =>
    a.length == 8 && b.length == 4 && c.length == 4 && d.length == 4 &&
    e.length == 12 && (a ++ b ++ c ++ d ++ e).all isHexChar
  | _ => false

/-- The validation chain on `POST /api/comments` (src/unnamed/part_010):
`manga_id` and `chapter_hid` non-empty, `content` trimmed (the sanitizer
mutates the body) and length-bounded 1..1000, `parent_id` optional but a
UUID when present. -/
def commentValidationOk (inp : CommentInput) : Bool :=
  !inp.manga_id.isEmpty && !inp.chapter_hid.isEmpty &&
  (1 ≤ (jsTrim inp.content).length && (jsTrim inp.content).length ≤ 1000) &&
  (match inp.parent_id with
   | none => true
   | some p => isUUID p)

/-- Outcome of `addComment`, tagged by the HTTP status the controller sends
(400 via `AppError` for validation, 404 for a missing parent, 201 with the
inserted row on success). -/
inductive AddCommentResult where
  | validationError
  | parentNotFound
  | created (row : RawComment)
deriving DecidableEq

/-- HTTP status of an `addComment` outcome. -/
def addResultStatus : AddCommentResult → Nat
  | .validationError => 400
  | .parentNotFound => 404
  | .created _ => 201

/-- The `addComment` controller
(src/src/controllers/comment.controller.ts lines 115-196) composed with its
route validation chain: check validation, then (for a truthy `parent_id`)
require the parent row to exist via `.single()`, then insert the row with
`content: content.trim()` where `content` is the request body already trimmed
by the route's sanitizer.  `newId` is the id generated by the store for the
new row and `now` its timestamp. -/
def addComment (table : List RawComment) (userId : String) (inp : CommentInput)
    (newId : String) (now : Nat) : AddCommentResult × List RawComment :=
  if !commentValidationOk inp then (.validationError, table)
  else
    let sanitizedContent := jsTrim inp.content
    let parentOk :=
      match inp.parent_id with
      | some p => if !p.isEmpty then (table.filter (fun c => c.id == p)).length == 1 else true
      | none => true
    if !parentOk then (.parentNotFound, table)
    else
      let row : RawComment :=
        { id := newId
          user_id := userId
          manga_id := inp.manga_id
          chapter_hid := inp.chapter_hid
          content := jsTrim sanitizedContent
          parent_id := inp.parent_id
          created_at := now
          updated_at := now }
      (.created row, table ++ [row])

/-- Outcome of `deleteComment`, tagged by the controller's HTTP status
(404 not found, 403 forbidden, 200 deleted). -/
inductive DeleteCommentResult where
  | notFound
  | forbidden
  | deleted
deriving DecidableEq

/-- HTTP status of a `deleteComment` outcome. -/
def deleteResultStatus : DeleteCommentResult → Nat
  | .notFound => 404
  | .forbidden => 403
  | .deleted => 200

/-- The `deleteComment` controller
(src/src/controllers/comment.controller.ts lines 201-244): fetch the target
with `.single()` (an error unless exactly one row matches), refuse with 403
when the caller is not the author, otherwise delete every row with that id.
Returns the outcome together with the resulting table. -/
def deleteComment (table : List RawComment) (callerId : String) (cid : String) :
    DeleteCommentResult × List RawComment :=
  match table.filter (fun c => c.id == cid) with
  | [c] =>
    if c.user_id ≠ callerId then (.forbidden, table)
    else (.deleted, table.filter (fun c => !(c.id == cid)))
  | _ => (.notFound, table)

/-! The bookmark write path (`POST /api/bookmarks`, src/unnamed/part_005
`addBookmark`). -/

/-- A row of the `bookmarks` table, with the columns written by
`addBookmark` (src/unnamed/part_005). -/
structure BookmarkRow where
  user_id : String
  username : Option String
  manga_id : String
  manga_hid : String
  manga_title : String
  manga_slug : String
  manga_cover_b2key : Option String
  manga_status : Nat
  manga_country : String
  last_read_chapter : Option String
  last_read_chapter_hid : Option String
  reading_status : String
  last_read_at : Option Nat
deriving DecidableEq

/-- The request body of `POST /api/bookmarks` (`BookmarkInput` in
src/unnamed/part_009); `none` models an absent property, to which the
controller's destructuring defaults apply. -/
structure BookmarkInput where
  manga_id : String
  manga_hid : String
  manga_title : String
  manga_slug : String
  manga_cover_b2key : Option String
  manga_status : Option Nat
  manga_country : Option String
  last_read_chapter : Option String
  last_read_chapter_hid : Option String
  reading_status : Option String
deriving DecidableEq

/-- The `bookmarkData` object built by `addBookmark`: destructuring defaults
`manga_status = 1`, `manga_country = 'jp'`, `reading_status = 'plan_to_read'`,
and `last_read_at` set to the current time exactly when `last_read_chapter`
is truthy. -/
def mkBookmarkRow (userId : String) (username : Option String)
    (inp : BookmarkInput) (now : Nat) : BookmarkRow :=
  { user_id := userId
    username := username
    manga_id := inp.manga_id
    manga_hid := inp.manga_hid
    manga_title := inp.manga_title
    manga_slug := inp.manga_slug
    manga_cover_b2key := inp.manga_cover_b2key
    manga_status := inp.manga_status.getD 1
    manga_country := inp.manga_country.getD ("jp")
    last_read_chapter := inp.last_read_chapter
    last_read_chapter_hid := inp.last_read_chapter_hid
    reading_status := inp.reading_status.getD ("plan_to_read")
    last_read_at := if truthy inp.last_read_chapter then some now else none }

/-- Does a row carry the conflict key `(user_id, manga_id) = (u, m)`? -/
def bookmarkKeyIs (u m : String) (r : BookmarkRow) : Bool :=
  r.user_id == u && r.manga_id == m

/-- Number of rows with conflict key `(u, m)`. -/
def bookmarkKeyCount (table : List BookmarkRow) (u m : String) : Nat :=
  (table.filter (bookmarkKeyIs u m)).length

/-- Modelled from the spec: the hosted relational store's
`upsert(bookmarkData, { onConflict: 'user_id,manga_id', ignoreDuplicates: false })`
— "Concurrent creation of a bookmark for the same (user, manga) pair is
resolved by an upsert-on-conflict semantic at the storage layer"; "Adding a
bookmark twice for the same (user, manga) pair results in exactly one stored
row, with the second call's fields overwriting the first's (upsert
semantics)".  The store itself is the external relational collaborator
(spec section 4.2); only its caller is in the repository.  If a row with the
conflict key exists it is overwritten in place, otherwise the row is
appended. -/
def upsertBookmark (table : List BookmarkRow) (row : BookmarkRow) :
    List BookmarkRow :=
  if table.any (bookmarkKeyIs row.user_id row.manga_id) then
    table.map (fun r => if bookmarkKeyIs row.user_id row.manga_id r then row else r)
  else table ++ [row]

/-- The successful path of the `addBookmark` controller
(src/unnamed/part_005 lines 84-169): build `bookmarkData` from the
authenticated user, the username resolved from the auth provider, and the
validated request body, then upsert it on the `(user_id, manga_id)` conflict
key. -/
def addBookmark (table : List BookmarkRow) (userId : String)
    (username : Option String) (inp : BookmarkInput) (now : Nat) :
    List BookmarkRow :=
  upsertBookmark table (mkBookmarkRow userId username inp now)

/-! Error normalisation (src/src/middleware/errorHandler.ts) and the
bookmark controllers' self-handled error responses (src/unnamed/part_005). -/

/-- Modelled from the spec: the `AppError` carrier class
(src/utils/appError.ts is absent from src/; only callers and the handler
are present).  Callers construct it with a message, an HTTP status code and
optional field-level validation details; a plain `Error` has no
`statusCode`/`errors` own-properties, which the handler detects with the
`in` operator — hence the `Option` fields. -/
structure AppErr where
  name : String
  message : String
  statusCode : Option Nat
  errors : Option (List String)
  stack : Option String
deriving DecidableEq

/-- The `{message, errors?, stack?}` object nested under `error` in the
normalised envelope `{success: false, error: {...}}`. -/
structure ErrorEnvelope where
  message : String
  errors : Option (List String)
  stack : Option String
deriving DecidableEq

/-- Body of an error response: either the central handler's envelope
`{success: false, error: {message, errors?, stack?}}`, or the flat
`{success: false, message, error?, errors?}` shape the bookmark controllers
send directly. -/
inductive ErrResponseBody where
  | envelope (e : ErrorEnvelope)
  | flat (message : String) (error : Option String) (errors : Option (List String))
deriving DecidableEq

/-- An error response: HTTP status plus body. -/
structure ErrResponse where
  status : Nat
  body : ErrResponseBody
deriving DecidableEq

/-- Is the body the normalised `{success:false, error:{...}}` envelope? -/
def isEnvelopeBody : ErrResponseBody → Bool
  | .envelope _ => true
  | .flat _ _ _ => false

/-- The `stack` field of an envelope body (`none` for a flat body). -/
def envelopeStack : ErrResponseBody → Option String
  | .envelope e => e.stack
  | .flat _ _ _ => none

/-- The central error handler (src/src/middleware/errorHandler.ts): status
from the error's `statusCode` (500 when absent), message defaulted when
falsy, then the three name-based overrides in source order; the body is
always the envelope, `errors` included when present, `stack` included
exactly when `NODE_ENV` is `development`. -/
def errorHandler (env : String) (err : AppErr) : ErrResponse :=
  let statusCode0 : Nat :=
    match err.statusCode with
    | some c => c
    | none => 500
  let message0 : String :=
    if err.message.isEmpty then ("Something went wrong") else err.message
  let statusCode1 := if err.name == "ValidationError" then 400 else statusCode0
  let message1 :=
    if err.name == "ValidationError" then ("Validation Error") else message0
  let statusCode2 := if err.name == "JsonWebTokenError" then 401 else statusCode1
  let message2 :=
    if err.name == "JsonWebTokenError"
    then ("Invalid token. Please log in again.") else message1
  let statusCode3 := if err.name == "TokenExpiredError" then 401 else statusCode2
  let message3 :=
    if err.name == "TokenExpiredError"
    then ("Your token has expired. Please log in again.") else message2
  { status := statusCode3
    body := ErrResponseBody.envelope
      { message := message3
        errors := err.errors
        stack := if env == "development" then err.stack else none } }

/-- The error response of `getBookmarks` when the bookmarks fetch fails
(src/unnamed/part_005 lines 54-61): `res.status(400).json({ success: false,
message: "Failed to fetch bookmarks", error: error.message })`. -/
def getBookmarksFetchErrResponse (dbMessage : String) : ErrResponse :=
  { status := 400
    body := ErrResponseBody.flat ("Failed to fetch bookmarks") (some dbMessage) none }

/-- Every error response sent directly by the bookmark controllers
(src/unnamed/part_005, covering getBookmarks, addBookmark, updateBookmark,
updateReadingProgress, removeBookmark, checkBookmark and
updateReadingStatus): 401 unauthenticated, 400 validation, 400 invalid
reading status, 400 failed store calls, 404 missing bookmark, 500
unhandled. -/
def bookmarkErrResponses (dbMessage : String) (verrs : List String) :
    List ErrResponse :=
  [ { status := 401, body := ErrResponseBody.flat ("User not authenticated") none none },
    { status := 400, body := ErrResponseBody.flat ("Validation failed") none (some verrs) },
    getBookmarksFetchErrResponse dbMessage,
    { status := 400, body := ErrResponseBody.flat ("Failed to add bookmark") (some dbMessage) none },
    { status := 400, body := ErrResponseBody.flat ("Failed to update bookmark") (some dbMessage) none },
    { status := 400, body := ErrResponseBody.flat ("Failed to update reading progress") (some dbMessage) none },
    { status := 404, body := ErrResponseBody.flat ("Bookmark not found") none none },
    { status := 400, body := ErrResponseBody.flat ("Failed to remove bookmark") (some dbMessage) none },
    { status := 400, body := ErrResponseBody.flat ("Failed to check bookmark status") (some dbMessage) none },
    { status := 400, body := ErrResponseBody.flat ("Invalid reading status") none none },
    { status := 400, body := ErrResponseBody.flat ("Failed to update reading status") (some dbMessage) none },
    { status := 500, body := ErrResponseBody.flat ("Internal server error") none none } ]

/-! Concrete inputs used to instantiate the theorems below. -/

/-- A concrete comment row with the given id, parent pointer, timestamp and
content, for building concrete instances. -/
def mkC (i : String) (p : Option String) (t : Nat) (body : String) : RawComment :=
  { id := i
    user_id := "u1"
    manga_id := "m1"
    chapter_hid := "ch1"
    content := body
    parent_id := p
    created_at := t
    updated_at := t }

/-- A top-level comment whose `parent_id` is the (non-null) empty string. -/
def cEmptyParent : RawComment := mkC ("p") (some ("")) 1 ("root")

/-- A reply whose parent pointer names `cEmptyParent`. -/
def cReplyToEmpty : RawComment := mkC ("r") (some ("p")) 2 ("reply")

/-- A plain top-level comment. -/
def cTop : RawComment := mkC ("a") none 1 ("top")

/-- A direct reply to `cTop`. -/
def cReply : RawComment := mkC ("b") (some ("a")) 2 ("child")

/-- A reply to the reply `cReply` (depth two in storage). -/
def cDeepReply : RawComment := mkC ("c") (some ("b")) 3 ("grandchild")

/-- A reply whose parent id matches no comment at all. -/
def cOrphan : RawComment := mkC ("x") (some ("q1")) 4 ("orphan")

/-- The input of the spec's end-to-end example, extended with two replies
created at the same instant (a `created_at` tie). -/
def demoThread : List RawComment :=
  [mkC ("1") none 2 ("first"), mkC ("2") none 1 ("second"),
   mkC ("3") (some ("1")) 3 ("r1"), mkC ("4") (some ("1")) 3 ("r2")]

/-- The first output item the builder produces for `demoThread`: comment 1
with its two tied replies in input order. -/
def demoTiedThread : ThreadedComment :=
  { base := enrich [] (mkC ("1") none 2 ("first"))
    replies := [enrich [] (mkC ("3") (some ("1")) 3 ("r1")),
                enrich [] (mkC ("4") (some ("1")) 3 ("r2"))] }

/-- The single output item the builder produces for `[cTop, cOrphan]`. -/
def demoTopOnly : ThreadedComment := { base := enrich [] cTop, replies := [] }

/-- The single output item the builder produces for
`[cTop, cReply, cDeepReply]`: the deep reply is absent. -/
def demoOneLevel : ThreadedComment :=
  { base := enrich [] cTop, replies := [enrich [] cReply] }

/-- Two distinct records sharing the id `x`, plus a reply pointing at `x`. -/
def demoDupIds : List RawComment :=
  [mkC ("x") none 1 ("one"), mkC ("x") none 2 ("two"), mkC ("r") (some ("x")) 3 ("rep")]

/-- A comment authored by a user with no profile row. -/
def cNoProfile : RawComment := mkC ("n") none 7 ("hello")

/-- A profile list that does not mention `cNoProfile`'s author. -/
def demoProfiles : List Profile :=
  [{ id := "someone-else", username := some ("zed"), avatar_url := some ("http:a") }]

/-- A stored comment owned by `alice`, used for the delete claims. -/
def cOwnedByAlice : RawComment :=
  { id := "d1"
    user_id := "alice"
    manga_id := "m1"
    chapter_hid := "ch1"
    content := "mine"
    parent_id := none
    created_at := 1
    updated_at := 1 }

/-- A well-formed add-comment request with padded content. -/
def demoCommentInput : CommentInput :=
  { manga_id := "m1", chapter_hid := "ch1", content := "  hi  ", parent_id := none }

/-- The row `addComment` inserts for `demoCommentInput`. -/
def demoInsertedRow : RawComment :=
  { id := "n1"
    user_id := "u1"
    manga_id := "m1"
    chapter_hid := "ch1"
    content := "hi"
    parent_id := none
    created_at := 5
    updated_at := 5 }

/-- A first add-bookmark request body. -/
def demoBookmarkInput1 : BookmarkInput :=
  { manga_id := "mg1"
    manga_hid := "hid1"
    manga_title := "Title One"
    manga_slug := "title-one"
    manga_cover_b2key := none
    manga_status := none
    manga_country := none
    last_read_chapter := none
    last_read_chapter_hid := none
    reading_status := none }

/-- A second add-bookmark request body for the same manga with different
fields. -/
def demoBookmarkInput2 : BookmarkInput :=
  { manga_id := "mg1"
    manga_hid := "hid1"
    manga_title := "Title One Revised"
    manga_slug := "title-one"
    manga_cover_b2key := some ("cover2")
    manga_status := some 2
    manga_country := some ("kr")
    last_read_chapter := some ("12")
    last_read_chapter_hid := some ("chhid12")
    reading_status := some ("reading") }

/-- A concrete forbidden-style application error. -/
def demoForbiddenErr : AppErr :=
  { name := "Error"
    message := "Not authorized to delete this comment"
    statusCode := some 403
    errors := none
    stack := some ("trace") }

/-- The ordering relation used by the replies comparator. -/
def timeLE (a b : EComment) : Prop := a.created_at ≤ b.created_at

/-! Lemmas about the stable sort. -/


theorem perm_insertByTime (x : EComment) (l : List EComment) :
    List.Perm (insertByTime x l) (x :: l) := by
  induction l with
  | nil => exact List.Perm.refl _
  | cons y ys ih =>
    rw [insertByTime]
    by_cases h : y.created_at < x.created_at
    · rw [if_pos h]
      exact List.Perm.trans (List.Perm.cons y ih) (List.Perm.swap x y ys)
    · rw [if_neg h]

theorem mem_insertByTime {z x : EComment} {l : List EComment} :
    z ∈ insertByTime x l ↔ z = x ∨ z ∈ l := by
  rw [(perm_insertByTime x l).mem_iff, List.mem_cons]

theorem perm_sortByTime (l : List EComment) :
    List.Perm (sortByTime l) l := by
  induction l with
  | nil => exact List.Perm.refl _
  | cons x xs ih =>
    rw [sortByTime]
    exact List.Perm.trans (perm_insertByTime x (sortByTime xs)) (List.Perm.cons x ih)

theorem pairwise_insertByTime {x : EComment} {l : List EComment}
    (h : l.Pairwise timeLE) : (insertByTime x l).Pairwise timeLE := by
  induction l with
  | nil => simp [insertByTime, List.Pairwise.nil]
  | cons y ys ih =>
    rw [insertByTime]
    rcases List.pairwise_cons.mp h with ⟨hy, hys⟩
    by_cases hlt : y.created_at < x.created_at
    · rw [if_pos hlt]
      refine List.Pairwise.cons ?_ (ih hys)
      intro z hz
      rcases mem_insertByTime.mp hz with hz | hz
      · subst hz; exact Nat.le_of_lt hlt
      · exact hy z hz
    · rw [if_neg hlt]
      refine List.Pairwise.cons ?_ h
      intro z hz
      rcases List.mem_cons.mp hz with hz | hz
      · subst hz; exact Nat.le_of_not_lt hlt
      · exact Nat.le_trans (Nat.le_of_not_lt hlt) (hy z hz)

theorem pairwise_sortByTime (l : List EComment) :
    (sortByTime l).Pairwise timeLE := by
  induction l with
  | nil => exact List.Pairwise.nil
  | cons x xs ih => exact pairwise_insertByTime ih

/-- Stability of the insertion step: for any fixed time `n`, the subsequence
of elements created at `n` gains `x` at the front when `x` was created at
`n`, and is untouched otherwise. -/
theorem filter_time_insertByTime (x : EComment) (l : List EComment) (n : Nat) :
    (insertByTime x l).filter (fun c => c.created_at == n) =
      if x.created_at = n then x :: l.filter (fun c => c.created_at == n)
      else l.filter (fun c => c.created_at == n) := by
  induction l with
  | nil =>
    by_cases hx : x.created_at = n
    · simp [insertByTime, hx]
    · simp [insertByTime, hx]
  | cons y ys ih =>
    rw [insertByTime]
    by_cases hlt : y.created_at < x.created_at
    · rw [if_pos hlt]
      by_cases hx : x.created_at = n
      · have hy : ¬(y.created_at = n) := by
          intro h; rw [h, hx] at hlt; exact Nat.lt_irrefl n hlt
        simp [List.filter_cons, hx, hy, ih]
      · by_cases hy : y.created_at = n
        · simp [List.filter_cons, hx, hy, ih]
        · simp [List.filter_cons, hx, hy, ih]
    · rw [if_neg hlt]
      by_cases hx : x.created_at = n
      · simp [List.filter_cons, hx]
      · simp [List.filter_cons, hx]

/-- Stability of the sort: for any fixed time `n`, elements created at `n`
appear in the sorted list exactly in their original relative order. -/
theorem filter_time_sortByTime (l : List EComment) (n : Nat) :
    (sortByTime l).filter (fun c => c.created_at == n) =
      l.filter (fun c => c.created_at == n) := by
  induction l with
  | nil => rfl
  | cons x xs ih =>
    rw [sortByTime, filter_time_insertByTime]
    by_cases hx : x.created_at = n
    · simp [List.filter_cons, hx, ih]
    · simp [List.filter_cons, hx, ih]

/-! Structural lemmas about the threading assembly. -/

theorem enrich_parent_id (profiles : List Profile) (c : RawComment) :
    (enrich profiles c).parent_id = c.parent_id := rfl

theorem enrich_id (profiles : List Profile) (c : RawComment) :
    (enrich profiles c).id = c.id := rfl

theorem mem_buildThread_iff {comments : List RawComment} {profiles : List Profile}
    {t : ThreadedComment} :
    t ∈ buildThread comments profiles ↔
      ∃ c, c ∈ transformedComments comments profiles ∧
        truthy c.parent_id = false ∧
        t = { base := c, replies := sortByTime (repliesMapGet comments profiles c.id) } := by
  constructor
  · intro ht
    rcases List.mem_map.mp ht with ⟨c, hc, hct⟩
    rcases List.mem_filter.mp hc with ⟨hcm, hcf⟩
    refine ⟨c, hcm, ?_, hct.symm⟩
    cases h : truthy c.parent_id
    · rfl
    · rw [h] at hcf; simp at hcf
  · rintro ⟨c, hcm, hcf, rfl⟩
    exact List.mem_map.mpr ⟨c, List.mem_filter.mpr ⟨hcm, by rw [hcf]; rfl⟩, rfl⟩

theorem base_of_mem_buildThread {comments : List RawComment} {profiles : List Profile}
    {t : ThreadedComment} (ht : t ∈ buildThread comments profiles) :
    t.base ∈ transformedComments comments profiles ∧ truthy t.base.parent_id = false := by
  rcases mem_buildThread_iff.mp ht with ⟨c, hcm, hcf, rfl⟩
  exact ⟨hcm, hcf⟩

theorem replies_of_mem_buildThread {comments : List RawComment} {profiles : List Profile}
    {t : ThreadedComment} (ht : t ∈ buildThread comments profiles) :
    t.replies = sortByTime (repliesMapGet comments profiles t.base.id) := by
  rcases mem_buildThread_iff.mp ht with ⟨c, _, _, rfl⟩
  rfl

theorem mem_replies_of_mem_buildThread {comments : List RawComment}
    {profiles : List Profile} {t : ThreadedComment} {r : EComment}
    (ht : t ∈ buildThread comments profiles) (hr : r ∈ t.replies) :
    r ∈ transformedComments comments profiles ∧ isReplyTo t.base.id r = true := by
  rw [replies_of_mem_buildThread ht] at hr
  have hr2 := (perm_sortByTime (repliesMapGet comments profiles t.base.id)).mem_iff.mp hr
  exact List.mem_filter.mp hr2

/-- A truthy `parent_id` is `some s` for a concrete nonempty `s`. -/
theorem truthy_iff {v : Option String} :
    truthy v = true ↔ ∃ s, v = some s ∧ s.isEmpty = false := by
  cases v with
  | none => simp [truthy]
  | some s =>
    simp only [truthy, Bool.not_eq_true']
    constructor
    · intro h; exact ⟨s, rfl, h⟩
    · rintro ⟨s2, hs2, h⟩; cases hs2; exact h

/-- Membership in a replies group determines the parent pointer. -/
theorem parent_of_isReplyTo {x : String} {c : EComment}
    (h : isReplyTo x c = true) : c.parent_id = some x ∧ truthy c.parent_id = true := by
  cases hp : c.parent_id with
  | none => rw [isReplyTo, hp] at h; cases h
  | some s =>
    rw [isReplyTo, hp] at h
    rcases (Bool.and_eq_true _ _).mp h with ⟨hne, heq⟩
    have hs : s = x := by
      have := eq_of_beq heq
      exact this
    subst hs
    refine ⟨rfl, ?_⟩
    simpa [truthy] using hne

/-- If no profile row matches `uid`, the lookup misses. -/
theorem profileLookup_eq_none {profiles : List Profile} {uid : String}
    (h : ∀ p ∈ profiles, p.id ≠ uid) : profileLookup profiles uid = none := by
  have key : ∀ (l : List Profile) (acc : Option Profile),
      (∀ p ∈ l, p.id ≠ uid) →
      l.foldl (fun acc p => if p.id = uid then some p else acc) acc = acc := by
    intro l
    induction l with
    | nil => intro acc _; rfl
    | cons q qs ih =>
      intro acc hall
      have hq : q.id ≠ uid := hall q (List.mem_cons_self q qs)
      rw [List.foldl_cons, if_neg hq]
      exact ih acc (fun p hp => hall p (List.mem_cons_of_mem q hp))
  exact key profiles none h

theorem dropWhile_idem (p : Char → Bool) (l : List Char) :
    (l.dropWhile p).dropWhile p = l.dropWhile p := by
  induction l with
  | nil => rfl
  | cons x xs ih =>
    by_cases hx : p x
    · rw [List.dropWhile_cons_of_pos hx, ih]
    · rw [List.dropWhile_cons_of_neg hx, List.dropWhile_cons_of_neg hx]

theorem trimLeftWS_idem (l : List Char) : trimLeftWS (trimLeftWS l) = trimLeftWS l :=
  dropWhile_idem Char.isWhitespace l

theorem trimRightWS_idem (l : List Char) : trimRightWS (trimRightWS l) = trimRightWS l := by
  rw [trimRightWS, trimRightWS, List.reverse_reverse, dropWhile_idem]

theorem trimRightWS_cons_of_neg {x : Char} (l : List Char)
    (hx : ¬Char.isWhitespace x = true) :
    trimRightWS (x :: l) = x :: trimRightWS l := by
  rw [trimRightWS, List.reverse_cons, List.dropWhile_append]
  by_cases he : (l.reverse.dropWhile Char.isWhitespace).isEmpty = true
  · have hnil : l.reverse.dropWhile Char.isWhitespace = [] :=
      List.isEmpty_iff.mp he
    have h2 : trimRightWS l = [] := by rw [trimRightWS, hnil]; rfl
    rw [if_pos he, List.dropWhile_cons_of_neg hx, h2]
    rfl
  · have h2 : trimRightWS l = (l.reverse.dropWhile Char.isWhitespace).reverse := rfl
    rw [if_neg he, List.reverse_append, h2]
    rfl

theorem trimLeft_trimRight_comm (l : List Char) :
    trimLeftWS (trimRightWS l) = trimRightWS (trimLeftWS l) := by
  induction l with
  | nil => rfl
  | cons x xs ih =>
    by_cases hx : Char.isWhitespace x
    · have h1 : trimLeftWS (x :: xs) = trimLeftWS xs :=
        List.dropWhile_cons_of_pos hx
      rw [h1, ← ih]
      by_cases he : (xs.reverse.dropWhile Char.isWhitespace).isEmpty = true
      · have hxs : xs.reverse.dropWhile Char.isWhitespace = [] :=
          List.isEmpty_iff.mp he
        have h2 : trimRightWS xs = [] := by rw [trimRightWS, hxs]; rfl
        have h3 : trimRightWS (x :: xs) = [] := by
          rw [trimRightWS, List.reverse_cons, List.dropWhile_append, if_pos he,
            List.dropWhile_cons_of_pos hx]
          rfl
        rw [h2, h3]
      · have h3 : trimRightWS (x :: xs) = x :: trimRightWS xs := by
          rw [trimRightWS, List.reverse_cons, List.dropWhile_append, if_neg he,
            List.reverse_append]
          rfl
        rw [h3]
        exact List.dropWhile_cons_of_pos hx
    · have h1 : trimLeftWS (x :: xs) = x :: xs :=
        List.dropWhile_cons_of_neg hx
      rw [h1, trimRightWS_cons_of_neg xs hx]
      exact List.dropWhile_cons_of_neg hx

theorem trimChars_idem (l : List Char) : trimChars (trimChars l) = trimChars l := by
  rw [trimChars, trimChars, trimLeft_trimRight_comm, trimRightWS_idem,
    trimLeftWS_idem]

theorem jsTrim_idem (s : String) : jsTrim (jsTrim s) = jsTrim s := by
  have h : (jsTrim s).data = trimChars s.data := rfl
  show String.mk (trimChars (jsTrim s).data) = jsTrim s
  rw [h, trimChars_idem]
  rfl

/-- Every comment object in the output (top-level or reply) is an enriched
input comment. -/
theorem mem_outputComments {comments : List RawComment} {profiles : List Profile}
    {x : EComment}
    (hx : x ∈ (buildThread comments profiles).flatMap (fun t => t.base :: t.replies)) :
    x ∈ transformedComments comments profiles := by
  rcases List.mem_flatMap.mp hx with ⟨t, ht, hxt⟩
  rcases List.mem_cons.mp hxt with h | h
  · subst h; exact (base_of_mem_buildThread ht).1
  · exact (mem_replies_of_mem_buildThread ht h).1

/-- C4: for every comment in the threading builder's output (top-level or
inside a replies list) whose `user_id` has no matching entry in the
author-metadata lookup, the enriched comment has username "Anonymous" and a
null `avatar_url`. -/
theorem C4_missing_profile_defaults (comments : List RawComment)
    (profiles : List Profile) (x : EComment)
    (hx : x ∈ (buildThread comments profiles).flatMap (fun t => t.base :: t.replies))
    (hmiss : ∀ p ∈ profiles, p.id ≠ x.user_id) :
    x.username = "Anonymous" ∧ x.avatar_url = none := by
  rcases List.mem_map.mp (mem_outputComments hx) with ⟨r, hr, hxr⟩
  subst hxr
  have hlook : profileLookup profiles r.user_id = none := by
    apply profileLookup_eq_none
    intro p hp
    exact hmiss p hp
  constructor
  · show jsOrString ((profileLookup profiles r.user_id).bind Profile.username)
      ("Anonymous") = "Anonymous"
    rw [hlook]
    rfl
  · show jsOrNull ((profileLookup profiles r.user_id).bind Profile.avatar_url) = none
    rw [hlook]
    rfl

/-- C4 witness: in the output for `[cNoProfile]` with profile list
`demoProfiles` (which has no row for its author), the comment surfaces with
username "Anonymous" and no avatar. -/
theorem C4_witness :
    (enrich demoProfiles cNoProfile).username = "Anonymous" ∧
    (enrich demoProfiles cNoProfile).avatar_url = none :=
  C4_missing_profile_defaults [cNoProfile] demoProfiles
    (enrich demoProfiles cNoProfile) (by decide) (by decide)

/-- C10: the builder partitions by truthiness rather than presence of
`parent_id`: a comment whose `parent_id` is the empty string is classified
as top-level and appears in the output as a top-level item, with its own
replies looked up by its `id`. -/
theorem C10_empty_parent_is_topLevel (comments : List RawComment)
    (profiles : List Profile) (c : RawComment) (hc : c ∈ comments)
    (hp : c.parent_id = some "") :
    ({ base := enrich profiles c,
       replies := sortByTime (repliesMapGet comments profiles c.id) } : ThreadedComment)
      ∈ buildThread comments profiles := by
  apply mem_buildThread_iff.mpr
  refine ⟨enrich profiles c, List.mem_map.mpr ⟨c, hc, rfl⟩, ?_, rfl⟩
  show truthy (enrich profiles c).parent_id = false
  rw [enrich_parent_id, hp]
  rfl

/-- C10 witness: with input `[cEmptyParent, cReplyToEmpty]` the
empty-string-parent comment is a top-level output item. -/
theorem C10_witness :
    ({ base := enrich [] cEmptyParent,
       replies := sortByTime (repliesMapGet [cEmptyParent, cReplyToEmpty] []
         cEmptyParent.id) } : ThreadedComment)
      ∈ buildThread [cEmptyParent, cReplyToEmpty] [] :=
  C10_empty_parent_is_topLevel [cEmptyParent, cReplyToEmpty] [] cEmptyParent
    (by decide) rfl

/-- C6: deleting an existing comment as a non-author yields the 403
forbidden outcome and leaves the comments store unchanged. -/
theorem C6_delete_nonauthor_forbidden (table : List RawComment)
    (callerId cid : String) (c : RawComment)
    (hfind : table.filter (fun x => x.id == cid) = [c])
    (hauthor : c.user_id ≠ callerId) :
    deleteComment table callerId cid = (DeleteCommentResult.forbidden, table) ∧
    deleteResultStatus (deleteComment table callerId cid).1 = 403 := by
  have h : deleteComment table callerId cid = (DeleteCommentResult.forbidden, table) := by
    rw [deleteComment, hfind]
    simp [hauthor]
  exact ⟨h, by rw [h]; rfl⟩

/-- C6 witness: caller `bob` cannot delete `alice`'s comment; the store is
untouched and the status is 403. -/
theorem C6_witness :
    deleteComment [cOwnedByAlice] "bob" "d1" =
      (DeleteCommentResult.forbidden, [cOwnedByAlice]) ∧
    deleteResultStatus (deleteComment [cOwnedByAlice] "bob" "d1").1 = 403 :=
  C6_delete_nonauthor_forbidden [cOwnedByAlice] "bob" "d1" cOwnedByAlice
    (by decide) (by decide)

/-- C3: the output's top-level items are exactly the enriched falsy-parent
comments in input order (the caller's query order), and each top-level
item's replies list is a permutation of its reply group that is
non-decreasing in `created_at`, with ties kept in their original relative
order (stability, expressed per time value). -/
theorem C3_topLevel_order_and_reply_sort (comments : List RawComment)
    (profiles : List Profile) :
    ((buildThread comments profiles).map ThreadedComment.base =
        topLevelComments comments profiles) ∧
    (∀ t ∈ buildThread comments profiles,
       List.Pairwise timeLE t.replies ∧
       List.Perm t.replies (repliesMapGet comments profiles t.base.id) ∧
       ∀ n : Nat, t.replies.filter (fun c => c.created_at == n) =
         (repliesMapGet comments profiles t.base.id).filter
           (fun c => c.created_at == n)) := by
  constructor
  · rw [buildThread, List.map_map]
    exact List.map_id _
  · intro t ht
    rw [replies_of_mem_buildThread ht]
    exact ⟨pairwise_sortByTime _, perm_sortByTime _,
      fun n => filter_time_sortByTime _ n⟩

/-- C3 witness: on the spec's end-to-end example (extended with a
`created_at` tie between replies 3 and 4), the top-level order matches the
input order and the tied replies stay in original order. -/
theorem C3_witness :
    ((buildThread demoThread []).map ThreadedComment.base =
        topLevelComments demoThread []) ∧
    List.Pairwise timeLE demoTiedThread.replies ∧
    demoTiedThread.replies.filter (fun c => c.created_at == 3) =
      (repliesMapGet demoThread [] demoTiedThread.base.id).filter
        (fun c => c.created_at == 3) := by
  have h := C3_topLevel_order_and_reply_sort demoThread []
  have h2 := h.2 demoTiedThread (by decide)
  exact ⟨h.1, h2.1, h2.2.2 3⟩

/-- C7: a successful add-comment stores the request content trimmed of
leading/trailing whitespace, with length in 1..1000, appending exactly one
row; a request whose trimmed content is empty or longer than 1000
characters is rejected with the 400 validation outcome and the table is
unchanged. -/
theorem C7_content_trim_and_bounds (table : List RawComment) (userId : String)
    (inp : CommentInput) (newId : String) (now : Nat) :
    (∀ row t2,
       addComment table userId inp newId now = (AddCommentResult.created row, t2) →
       row.content = jsTrim inp.content ∧
       1 ≤ row.content.length ∧ row.content.length ≤ 1000 ∧
       t2 = table ++ [row]) ∧
    ((jsTrim inp.content).length = 0 ∨ 1000 < (jsTrim inp.content).length →
       addComment table userId inp newId now = (AddCommentResult.validationError, table) ∧
       addResultStatus (addComment table userId inp newId now).1 = 400) := by
  constructor
  · intro row t2 h
    rw [addComment] at h
    by_cases hv : commentValidationOk inp = true
    · rw [hv] at h
      simp only [Bool.not_true, Bool.false_eq_true, if_false] at h
      have hbounds : 1 ≤ (jsTrim inp.content).length ∧
          (jsTrim inp.content).length ≤ 1000 := by
        rw [commentValidationOk] at hv
        rcases (Bool.and_eq_true _ _).mp hv with ⟨hv1, _⟩
        rcases (Bool.and_eq_true _ _).mp hv1 with ⟨hv2, hlen⟩
        rcases (Bool.and_eq_true _ _).mp hlen with ⟨hlo, hhi⟩
        exact ⟨of_decide_eq_true hlo, of_decide_eq_true hhi⟩
      split at h
      · cases h
      · rcases Prod.mk.injEq _ _ _ _ ▸ h with ⟨h1, h2⟩
        cases h1
        refine ⟨jsTrim_idem inp.content, ?_, ?_, h2.symm⟩
        · show 1 ≤ (jsTrim (jsTrim inp.content)).length
          rw [jsTrim_idem]
          exact hbounds.1
        · show (jsTrim (jsTrim inp.content)).length ≤ 1000
          rw [jsTrim_idem]
          exact hbounds.2
    · rw [Bool.eq_false_iff.mpr hv] at h
      simp only [Bool.not_false, if_true] at h
      cases h
  · intro hbad
    have hv : commentValidationOk inp = false := by
      rcases hbad with h0 | h1000
      · have hno : ¬(1 ≤ (jsTrim inp.content).length) := by omega
        rw [commentValidationOk]
        simp [decide_eq_false hno]
      · have hno : ¬((jsTrim inp.content).length ≤ 1000) := by omega
        rw [commentValidationOk]
        simp [decide_eq_false hno]
    have h : addComment table userId inp newId now =
        (AddCommentResult.validationError, table) := by
      rw [addComment, hv]
      simp
    exact ⟨h, by rw [h]; rfl⟩

/-- C7 witness: the request with content "  hi  " succeeds and stores
exactly the trimmed two-character content; the row appended is
`demoInsertedRow`. -/
theorem C7_witness :
    demoInsertedRow.content = jsTrim demoCommentInput.content ∧
    1 ≤ demoInsertedRow.content.length ∧ demoInsertedRow.content.length ≤ 1000 ∧
    [demoInsertedRow] = [] ++ [demoInsertedRow] :=
  (C7_content_trim_and_bounds [] "u1" demoCommentInput "n1" 5).1
    demoInsertedRow [demoInsertedRow] (by decide)

/-- A comment with a truthy `parent_id` that is not the id of any
falsy-parent input comment is surfaced nowhere: it is no output base and in
no replies list. -/
theorem dropped_of_no_falsy_parent {comments : List RawComment}
    {profiles : List Profile} {c : RawComment}
    (htr : truthy c.parent_id = true)
    (horphan : ∀ d ∈ comments, truthy d.parent_id = false → c.parent_id ≠ some d.id) :
    ∀ t ∈ buildThread comments profiles,
      t.base ≠ enrich profiles c ∧ enrich profiles c ∉ t.replies := by
  intro t ht
  constructor
  · intro heq
    have hb := (base_of_mem_buildThread ht).2
    rw [heq, enrich_parent_id, htr] at hb
    cases hb
  · intro hmem
    rcases mem_replies_of_mem_buildThread ht hmem with ⟨_, hrep⟩
    have hpar := (parent_of_isReplyTo hrep).1
    rw [enrich_parent_id] at hpar
    rcases base_of_mem_buildThread ht with ⟨hbm, hbf⟩
    rcases List.mem_map.mp hbm with ⟨d, hd, hdb⟩
    have hdf : truthy d.parent_id = false := by
      rw [← enrich_parent_id profiles d, hdb]
      exact hbf
    apply horphan d hd hdf
    rw [hpar, ← hdb, enrich_id]

/-- C1 counterexample: in the input `[cEmptyParent, cReplyToEmpty]`, the
comment `cReplyToEmpty` has the non-null `parent_id` "p", and no comment
whose `parent_id` is null/absent has id "p" (the only comment with id "p"
carries the non-null empty-string `parent_id`); the claim then demands that
`cReplyToEmpty` appear nowhere, yet the builder surfaces it inside the
replies list of the top-level item "p". -/
theorem C1_counterexample :
    (cReplyToEmpty.parent_id = some ("p")) ∧
    ([cEmptyParent, cReplyToEmpty].all
        (fun d => !(d.parent_id == none && d.id == "p")) = true) ∧
    ((buildThread [cEmptyParent, cReplyToEmpty] []).map
        (fun t => (t.base.id, t.replies.map EComment.id)) = [(("p"), ["r"])]) ∧
    ((buildThread [cEmptyParent, cReplyToEmpty] []).any
        (fun t => t.replies.any (fun x => x.id == "r")) = true) :=
  ⟨rfl, by decide, by decide, by decide⟩

/-- C1 (amended): a comment whose `parent_id` is truthy (non-null and
non-empty) but does not equal the id of any comment in the input whose
`parent_id` is falsy (null, absent, or the empty string) appears nowhere in
the threading builder's output: it is neither a top-level item nor contained
in any top-level comment's replies list. -/
theorem C1_orphan_reply_dropped (comments : List RawComment)
    (profiles : List Profile) (c : RawComment) (_hc : c ∈ comments)
    (htr : truthy c.parent_id = true)
    (horphan : ∀ d ∈ comments, truthy d.parent_id = false → c.parent_id ≠ some d.id) :
    ∀ t ∈ buildThread comments profiles,
      t.base ≠ enrich profiles c ∧ enrich profiles c ∉ t.replies :=
  dropped_of_no_falsy_parent htr horphan

/-- C1 witness: in `[cTop, cOrphan]` the orphan reply (parent id "q1",
matching nothing) is neither the base nor among the replies of the single
output item. -/
theorem C1_witness :
    demoTopOnly.base ≠ enrich [] cOrphan ∧ enrich [] cOrphan ∉ demoTopOnly.replies :=
  C1_orphan_reply_dropped [cTop, cOrphan] [] cOrphan (by decide) (by decide)
    (by decide) demoTopOnly (by decide)

/-- C2 counterexample: with input `[cTop, cReply, cDeepReply]`,
`cDeepReply`'s `parent_id` refers to the reply `cReply`; the claim demands
that `cDeepReply` be placed in the replies list of its top-level ancestor
`cTop`, but the builder's output is `[("a", ["b"])]` — the deep reply
appears nowhere at all. -/
theorem C2_counterexample :
    (cDeepReply.parent_id = some cReply.id) ∧
    (truthy cReply.parent_id = true) ∧
    ((buildThread [cTop, cReply, cDeepReply] []).map
        (fun t => (t.base.id, t.replies.map EComment.id)) = [(("a"), ["b"])]) ∧
    ((buildThread [cTop, cReply, cDeepReply] []).all
        (fun t => (t.base.id != "c") && t.replies.all (fun x => x.id != "c")) = true) :=
  ⟨rfl, rfl, by decide, by decide⟩

/-- C2 (amended): a comment whose `parent_id` refers only to replies
(every input comment it names has a truthy `parent_id`) is dropped from the
read path's output entirely — it is not attached to its top-level ancestor;
the output still materializes exactly one level of nesting, because every
output base has a falsy `parent_id` and every element of a replies list
points directly at the containing top-level comment's id. -/
theorem C2_deep_reply_dropped_one_level (comments : List RawComment)
    (profiles : List Profile) (c : RawComment) (_hc : c ∈ comments)
    (htr : truthy c.parent_id = true)
    (hparent : ∀ d ∈ comments, c.parent_id = some d.id → truthy d.parent_id = true) :
    ∀ t ∈ buildThread comments profiles,
      (t.base ≠ enrich profiles c ∧ enrich profiles c ∉ t.replies) ∧
      truthy t.base.parent_id = false ∧
      ∀ r ∈ t.replies, r.parent_id = some t.base.id := by
  intro t ht
  have horphan : ∀ d ∈ comments, truthy d.parent_id = false →
      c.parent_id ≠ some d.id := by
    intro d hd hdf heq
    have := hparent d hd heq
    rw [hdf] at this
    cases this
  refine ⟨dropped_of_no_falsy_parent htr horphan t ht,
    (base_of_mem_buildThread ht).2, ?_⟩
  intro r hr
  exact (parent_of_isReplyTo (mem_replies_of_mem_buildThread ht hr).2).1

/-- C2 witness: for `[cTop, cReply, cDeepReply]` the single output item has
falsy base parent, omits the deep reply, and its reply points at the base. -/
theorem C2_witness :
    (demoOneLevel.base ≠ enrich [] cDeepReply ∧
      enrich [] cDeepReply ∉ demoOneLevel.replies) ∧
    truthy demoOneLevel.base.parent_id = false ∧
    (enrich [] cReply).parent_id = some demoOneLevel.base.id := by
  have h := C2_deep_reply_dropped_one_level [cTop, cReply, cDeepReply] []
    cDeepReply (by decide) (by decide) (by decide) demoOneLevel (by decide)
  exact ⟨h.1, h.2.1, h.2.2 (enrich [] cReply) (by decide)⟩

/-- C8 counterexample: the error response `getBookmarks` sends when the
bookmarks fetch fails is a request-error response with status 400 whose body
is the flat `{success:false, message, error}` object, not the
`{success:false, error:{message, ...}}` envelope the claim requires of every
error response. -/
theorem C8_counterexample :
    (getBookmarksFetchErrResponse ("connection refused")).status = 400 ∧
    isEnvelopeBody (getBookmarksFetchErrResponse ("connection refused")).body = false :=
  ⟨rfl, rfl⟩

/-- C8 (amended): every error response has status 400, 401, 403, 404 or 500
(assuming the thrown error's own status code, when present, is one of these
— every `AppError` constructed in the repository uses one of them); a
response produced by the central `errorHandler` always carries the
`{success:false, error:{message, errors?, stack?}}` envelope with `stack`
present only in development mode, while the bookmark controllers' own error
responses instead carry the flat `{success:false, message, error?|errors?}`
body. -/
theorem C8_error_statuses_and_shapes (env : String) (err : AppErr)
    (dbMessage : String) (verrs : List String)
    (hstatus : err.statusCode = none ∨
       err.statusCode ∈ [some 400, some 401, some 403, some 404, some 500]) :
    ((errorHandler env err).status ∈ [400, 401, 403, 404, 500] ∧
     isEnvelopeBody (errorHandler env err).body = true ∧
     (envelopeStack (errorHandler env err).body ≠ none → env = "development")) ∧
    (∀ r ∈ bookmarkErrResponses dbMessage verrs,
       r.status ∈ [400, 401, 403, 404, 500] ∧ isEnvelopeBody r.body = false) := by
  refine ⟨⟨?_, rfl, ?_⟩, ?_⟩
  · rcases hstatus with h | h
    · simp only [errorHandler, h]
      split_ifs <;> simp
    · simp only [List.mem_cons, List.not_mem_nil, or_false] at h
      rcases h with h | h | h | h | h <;>
        · simp only [errorHandler, h]
          split_ifs <;> simp
  · intro hstack
    have hrfl : envelopeStack (errorHandler env err).body =
        if env == "development" then err.stack else none := rfl
    by_cases he : (env == "development") = true
    · exact eq_of_beq he
    · rw [hrfl, if_neg he] at hstack
      exact absurd rfl hstack
  · intro r hr
    simp only [bookmarkErrResponses, getBookmarksFetchErrResponse,
      List.mem_cons, List.not_mem_nil, or_false] at hr
    rcases hr with rfl | rfl | rfl | rfl | rfl | rfl | rfl | rfl | rfl | rfl | rfl | rfl <;>
      exact ⟨by simp, rfl⟩

/-- C8 witness: a 403 application error in production mode is normalised to
an in-range status with the envelope body. -/
theorem C8_witness :
    (errorHandler ("production") demoForbiddenErr).status ∈ [400, 401, 403, 404, 500] ∧
    isEnvelopeBody (errorHandler ("production") demoForbiddenErr).body = true := by
  have h := C8_error_statuses_and_shapes ("production") demoForbiddenErr
    ("db down") [] (Or.inr (by decide))
  exact ⟨h.1.1, h.1.2.1⟩

/-- A spelled-out membership test for the conflict key. -/
theorem bookmarkKeyIs_iff (u m : String) (r : BookmarkRow) :
    bookmarkKeyIs u m r = true ↔ (r.user_id = u ∧ r.manga_id = m) := by
  simp [bookmarkKeyIs]

/-- If no row of `t` carries the key, replacing key rows leaves no key row. -/
theorem filter_map_replace_of_none {u m : String} {row : BookmarkRow}
    {t : List BookmarkRow} (h : ∀ r ∈ t, ¬bookmarkKeyIs u m r = true) :
    (t.map (fun r => if bookmarkKeyIs u m r then row else r)).filter
      (bookmarkKeyIs u m) = [] := by
  induction t with
  | nil => rfl
  | cons a t ih =>
    have ha := h a (List.mem_cons_self a t)
    rw [List.map_cons, if_neg ha, List.filter_cons_of_neg ha]
    exact ih (fun r hr => h r (List.mem_cons_of_mem a hr))

/-- If some row of `t` carries the key and at most one does, replacing the
key rows by `row` leaves exactly `[row]` under the key filter. -/
theorem filter_map_replace_of_one {u m : String} {row : BookmarkRow}
    (hrow : bookmarkKeyIs u m row = true) {t : List BookmarkRow}
    (hle : (t.filter (bookmarkKeyIs u m)).length ≤ 1)
    (hany : t.any (bookmarkKeyIs u m) = true) :
    (t.map (fun r => if bookmarkKeyIs u m r then row else r)).filter
      (bookmarkKeyIs u m) = [row] := by
  induction t with
  | nil => cases hany
  | cons a t ih =>
    by_cases hka : bookmarkKeyIs u m a = true
    · have htail : ∀ r ∈ t, ¬bookmarkKeyIs u m r = true := by
        rw [List.filter_cons_of_pos hka] at hle
        have h0 : (t.filter (bookmarkKeyIs u m)).length = 0 := by
          simp only [List.length_cons] at hle
          omega
        exact List.filter_eq_nil_iff.mp (List.length_eq_zero.mp h0)
      rw [List.map_cons, if_pos hka, List.filter_cons_of_pos hrow,
        filter_map_replace_of_none htail]
    · have hany2 : t.any (bookmarkKeyIs u m) = true := by
        rw [List.any_cons] at hany
        rcases Bool.or_eq_true _ _ |>.mp hany with h | h
        · exact absurd h hka
        · exact h
      have hle2 : (t.filter (bookmarkKeyIs u m)).length ≤ 1 := by
        rw [List.filter_cons_of_neg hka] at hle
        exact hle
      rw [List.map_cons, if_neg hka, List.filter_cons_of_neg hka]
      exact ih hle2 hany2

/-- Upserting a row whose key occurs at most once leaves exactly that row
under its key. -/
theorem filter_upsertBookmark_self (t : List BookmarkRow) (row : BookmarkRow)
    (hle : bookmarkKeyCount t row.user_id row.manga_id ≤ 1) :
    (upsertBookmark t row).filter (bookmarkKeyIs row.user_id row.manga_id)
      = [row] := by
  have hrow : bookmarkKeyIs row.user_id row.manga_id row = true := by
    rw [bookmarkKeyIs_iff]
    exact ⟨rfl, rfl⟩
  rw [upsertBookmark]
  by_cases hany : t.any (bookmarkKeyIs row.user_id row.manga_id) = true
  · rw [if_pos hany]
    exact filter_map_replace_of_one hrow hle hany
  · rw [if_neg hany, List.filter_append]
    have h0 : t.filter (bookmarkKeyIs row.user_id row.manga_id) = [] := by
      rw [List.filter_eq_nil_iff]
      intro a ha hcon
      exact hany (List.any_eq_true.mpr ⟨a, ha, hcon⟩)
    rw [h0, List.filter_cons_of_pos hrow, List.filter_nil, List.nil_append]

/-- Replacing the upserted key's rows does not change the rows under any
other key. -/
theorem filter_map_replace_other {u m : String} {row : BookmarkRow}
    (t : List BookmarkRow) (hrowf : ¬bookmarkKeyIs u m row = true)
    (hdist : ∀ r : BookmarkRow,
      bookmarkKeyIs row.user_id row.manga_id r = true → ¬bookmarkKeyIs u m r = true) :
    (t.map (fun r => if bookmarkKeyIs row.user_id row.manga_id r then row else r)).filter
        (bookmarkKeyIs u m)
      = t.filter (bookmarkKeyIs u m) := by
  induction t with
  | nil => rfl
  | cons a t ih =>
    rw [List.map_cons]
    by_cases hka : bookmarkKeyIs row.user_id row.manga_id a = true
    · rw [if_pos hka, List.filter_cons_of_neg hrowf,
        List.filter_cons_of_neg (hdist a hka)]
      exact ih
    · rw [if_neg hka, List.filter_cons, List.filter_cons, ih]

/-- An upsert does not change the number of rows under any other key. -/
theorem count_upsertBookmark_other {t : List BookmarkRow} {row : BookmarkRow}
    {u m : String} (hne : ¬(u = row.user_id ∧ m = row.manga_id)) :
    bookmarkKeyCount (upsertBookmark t row) u m = bookmarkKeyCount t u m := by
  have hrowf : ¬bookmarkKeyIs u m row = true := by
    rw [bookmarkKeyIs_iff]
    intro h
    exact hne ⟨h.1.symm, h.2.symm⟩
  have hdist : ∀ r : BookmarkRow,
      bookmarkKeyIs row.user_id row.manga_id r = true → ¬bookmarkKeyIs u m r = true := by
    intro r h1 h2
    rw [bookmarkKeyIs_iff] at h1 h2
    exact hne ⟨h2.1.symm.trans h1.1, h2.2.symm.trans h1.2⟩
  rw [upsertBookmark]
  by_cases hany : t.any (bookmarkKeyIs row.user_id row.manga_id) = true
  · rw [if_pos hany, bookmarkKeyCount, bookmarkKeyCount,
      filter_map_replace_other t hrowf hdist]
  · rw [if_neg hany, bookmarkKeyCount, bookmarkKeyCount, List.filter_append,
      List.filter_cons_of_neg hrowf, List.filter_nil, List.append_nil]

/-- An upsert preserves the at-most-one-row-per-key invariant. -/
theorem upsertBookmark_preserves_unique {t : List BookmarkRow}
    {row : BookmarkRow} (hinv : ∀ u m, bookmarkKeyCount t u m ≤ 1) :
    ∀ u m, bookmarkKeyCount (upsertBookmark t row) u m ≤ 1 := by
  intro u m
  by_cases h : u = row.user_id ∧ m = row.manga_id
  · rcases h with ⟨rfl, rfl⟩
    rw [bookmarkKeyCount, filter_upsertBookmark_self t row (hinv _ _)]
    exact Nat.le_refl 1
  · rw [count_upsertBookmark_other h]
    exact hinv u m

/-- C5: starting from a store with at most one bookmark row per
`(user_id, manga_id)` key, adding a bookmark twice for the same user and
manga (possibly with different field values) leaves exactly one row for
that key — the row built from the second call's fields — and the
at-most-one-row invariant holds for every key afterwards. -/
theorem C5_add_bookmark_twice_upserts (table : List BookmarkRow)
    (u m : String) (un1 un2 : Option String) (i1 i2 : BookmarkInput)
    (n1 n2 : Nat) (_hm1 : i1.manga_id = m) (hm2 : i2.manga_id = m)
    (hinv : ∀ a b, bookmarkKeyCount table a b ≤ 1) :
    ((addBookmark (addBookmark table u un1 i1 n1) u un2 i2 n2).filter
        (bookmarkKeyIs u m) = [mkBookmarkRow u un2 i2 n2]) ∧
    bookmarkKeyCount (addBookmark (addBookmark table u un1 i1 n1) u un2 i2 n2)
        u m = 1 ∧
    (∀ a b,
      bookmarkKeyCount (addBookmark (addBookmark table u un1 i1 n1) u un2 i2 n2)
        a b ≤ 1) := by
  subst hm2
  have hinv1 : ∀ a b,
      bookmarkKeyCount (addBookmark table u un1 i1 n1) a b ≤ 1 :=
    upsertBookmark_preserves_unique hinv
  have hfilter : (addBookmark (addBookmark table u un1 i1 n1) u un2 i2 n2).filter
      (bookmarkKeyIs u i2.manga_id) = [mkBookmarkRow u un2 i2 n2] :=
    filter_upsertBookmark_self (addBookmark table u un1 i1 n1)
      (mkBookmarkRow u un2 i2 n2) (hinv1 _ _)
  refine ⟨hfilter, ?_, upsertBookmark_preserves_unique hinv1⟩
  rw [bookmarkKeyCount, hfilter]
  rfl

/-- C5 witness: adding `demoBookmarkInput1` then `demoBookmarkInput2` for
user `u1` and manga `mg1` into an empty store leaves exactly the second
call's row. -/
theorem C5_witness :
    ((addBookmark (addBookmark [] "u1" none demoBookmarkInput1 10) "u1"
        (some ("sam")) demoBookmarkInput2 20).filter (bookmarkKeyIs "u1" "mg1")
      = [mkBookmarkRow "u1" (some ("sam")) demoBookmarkInput2 20]) ∧
    bookmarkKeyCount (addBookmark (addBookmark [] "u1" none demoBookmarkInput1 10)
        "u1" (some ("sam")) demoBookmarkInput2 20) "u1" "mg1" = 1 := by
  have h := C5_add_bookmark_twice_upserts [] "u1" "mg1" none (some ("sam"))
    demoBookmarkInput1 demoBookmarkInput2 10 20 rfl rfl
    (by intro a b; exact Nat.zero_le 1)
  exact ⟨h.1, h.2.1⟩

/-- Enrichment leaves the comment's ids unchanged, list-wise. -/
theorem map_id_transformedComments (comments : List RawComment)
    (profiles : List Profile) :
    (transformedComments comments profiles).map EComment.id =
      comments.map RawComment.id := by
  rw [transformedComments, List.map_map]
  rfl

/-- The ids occurring in one output chunk: the base id or the id of an
enriched input comment grouped under the base id. -/
theorem mem_chunk_cases {comments : List RawComment} {profiles : List Profile}
    {c : EComment} {s : String}
    (hs : s ∈ c.id ::
      (sortByTime (repliesMapGet comments profiles c.id)).map EComment.id) :
    s = c.id ∨ ∃ r ∈ transformedComments comments profiles,
      isReplyTo c.id r = true ∧ s = r.id := by
  rcases List.mem_cons.mp hs with h | h
  · exact Or.inl h
  · rcases List.mem_map.mp h with ⟨r, hr, hrs⟩
    have hr2 := (perm_sortByTime _).mem_iff.mp hr
    rcases List.mem_filter.mp hr2 with ⟨hrE, hrrep⟩
    exact Or.inr ⟨r, hrE, hrrep, hrs.symm⟩

/-- C9 counterexample: with two distinct input records sharing the id "x"
and a reply pointing at "x", the reply's enriched comment occurs twice in
the whole output (once under each duplicate top-level item), so an input
comment appears more than once. -/
theorem C9_counterexample :
    (demoDupIds.map RawComment.id = ["x", "x", "r"]) ∧
    (((buildThread demoDupIds []).flatMap (fun t => t.base :: t.replies)).count
        (enrich [] (mkC ("r") (some ("x")) 3 ("rep"))) = 2) :=
  ⟨by decide, by decide⟩

/-- C9 (amended): provided the input comments' ids are pairwise distinct,
every comment object in the threading builder's output — top-level or
inside a replies list — is the enrichment of an input record, no id occurs
twice anywhere in the output (so no input comment appears more than once),
and enrichment preserves the eight stored fields unchanged (it only adds
`username` and `avatar_url`; `replies` is attached outside the record). -/
theorem C9_output_frame_and_no_duplication (comments : List RawComment)
    (profiles : List Profile)
    (hids : (comments.map RawComment.id).Nodup) :
    (∀ x ∈ (buildThread comments profiles).flatMap (fun t => t.base :: t.replies),
        ∃ r ∈ comments, x = enrich profiles r) ∧
    ((buildThread comments profiles).flatMap
        (fun t => t.base.id :: t.replies.map EComment.id)).Nodup ∧
    (∀ (p : List Profile) (r : RawComment),
       (enrich p r).id = r.id ∧ (enrich p r).user_id = r.user_id ∧
       (enrich p r).manga_id = r.manga_id ∧
       (enrich p r).chapter_hid = r.chapter_hid ∧
       (enrich p r).content = r.content ∧
       (enrich p r).parent_id = r.parent_id ∧
       (enrich p r).created_at = r.created_at ∧
       (enrich p r).updated_at = r.updated_at) := by
  have hE : ((transformedComments comments profiles).map EComment.id).Nodup := by
    rw [map_id_transformedComments]
    exact hids
  have inj := List.inj_on_of_nodup_map hE
  have hTLsub : (topLevelComments comments profiles).Sublist
      (transformedComments comments profiles) :=
    List.filter_sublist _
  have hTLids : ((topLevelComments comments profiles).map EComment.id).Nodup :=
    List.Nodup.sublist (List.Sublist.map _ hTLsub) hE
  refine ⟨?_, ?_, ?_⟩
  · intro x hx
    rcases List.mem_map.mp (mem_outputComments hx) with ⟨r, hr, hrx⟩
    exact ⟨r, hr, hrx.symm⟩
  · rw [buildThread, List.flatMap_map]
    apply List.nodup_flatMap.mpr
    constructor
    · intro c hc
      have hcE : c ∈ transformedComments comments profiles := hTLsub.subset hc
      have hcf : truthy c.parent_id = false := by
        have hc2 : c ∈ (transformedComments comments profiles).filter
            (fun c => !(truthy c.parent_id)) := hc
        have := (List.mem_filter.mp hc2).2
        cases h : truthy c.parent_id
        · rfl
        · rw [h] at this
          simp at this
      apply List.nodup_cons.mpr
      constructor
      · intro hmem
        rcases List.mem_map.mp hmem with ⟨r, hr, hrid⟩
        have hr2 := (perm_sortByTime _).mem_iff.mp hr
        rcases List.mem_filter.mp hr2 with ⟨hrE, hrrep⟩
        have hrc : r = c := inj hrE hcE hrid
        have htr := (parent_of_isReplyTo hrrep).2
        rw [hrc, hcf] at htr
        cases htr
      · have hperm := (perm_sortByTime
          (repliesMapGet comments profiles c.id)).map EComment.id
        apply hperm.nodup_iff.mpr
        exact List.Nodup.sublist
          (List.Sublist.map _ (List.filter_sublist _)) hE
    · apply List.Pairwise.imp_of_mem ?_ (List.pairwise_map.mp hTLids)
      intro a b ha hb hne s hsa hsb
      have haE : a ∈ transformedComments comments profiles := hTLsub.subset ha
      have hbE : b ∈ transformedComments comments profiles := hTLsub.subset hb
      have haf : truthy a.parent_id = false := by
        have ha2 : a ∈ (transformedComments comments profiles).filter
            (fun c => !(truthy c.parent_id)) := ha
        have := (List.mem_filter.mp ha2).2
        cases h : truthy a.parent_id
        · rfl
        · rw [h] at this
          simp at this
      have hbf : truthy b.parent_id = false := by
        have hb2 : b ∈ (transformedComments comments profiles).filter
            (fun c => !(truthy c.parent_id)) := hb
        have := (List.mem_filter.mp hb2).2
        cases h : truthy b.parent_id
        · rfl
        · rw [h] at this
          simp at this
      rcases mem_chunk_cases hsa with h1 | ⟨r1, hr1E, hr1rep, hs1⟩
      · rcases mem_chunk_cases hsb with h2 | ⟨r2, hr2E, hr2rep, hs2⟩
        · exact hne (h1 ▸ h2 ▸ rfl)
        · have hr2a : r2 = a := inj hr2E haE (by rw [← hs2, ← h1])
          have htr := (parent_of_isReplyTo hr2rep).2
          rw [hr2a, haf] at htr
          cases htr
      · rcases mem_chunk_cases hsb with h2 | ⟨r2, hr2E, hr2rep, hs2⟩
        · have hr1b : r1 = b := inj hr1E hbE (by rw [← hs1, ← h2])
          have htr := (parent_of_isReplyTo hr1rep).2
          rw [hr1b, hbf] at htr
          cases htr
        · have hr12 : r1 = r2 := inj hr1E hr2E (by rw [← hs1, ← hs2])
          have hp1 := (parent_of_isReplyTo hr1rep).1
          have hp2 := (parent_of_isReplyTo hr2rep).1
          rw [hr12, hp2] at hp1
          exact hne (Option.some.inj hp1.symm)
  · intro p r
    exact ⟨rfl, rfl, rfl, rfl, rfl, rfl, rfl, rfl⟩

/-- C9 witness: on `demoThread` (distinct ids) no id occurs twice anywhere
in the output. -/
theorem C9_witness :
    ((buildThread demoThread []).flatMap
        (fun t => t.base.id :: t.replies.map EComment.id)).Nodup :=
  (C9_output_frame_and_no_duplication demoThread [] (by decide)).2.1

end MangaHilaw
